import Mathlib

/-!
# go-hello: weather providers, their composite and the `/weather/` handler

A shallow embedding of `src/main.go`.

* Go's `float64` is modelled exactly (IEEE-754 binary64, round to nearest, ties to even) by the
  type `float64` below, so that `+`, `/`, the conversion `float64(len(w))` and the constants
  `0.0` and `273.15` can be evaluated on concrete inputs.
* A Go call either returns or panics; `Outcome` records which.  A Go result pair
  `(float64, error)` is the pair `float64 × Option Err` (`none` is the nil error).
* The network and the JSON decoder are collaborators of the program: they are the fields of
  `Net`, a parameter of the two concrete providers.
* One request is modelled: during it a call `p.temperature(city)` is a function of `city`.
* `log.Printf` only writes a diagnostic line and is left out.
-/

namespace GoHello

/-! ## `float64` -/

/-- IEEE-754 binary64 value.  `fin neg m e` stands for `(-1)^neg * m * 2^(e - 1074)`; the
results of the operations below are canonical: `m < 2^53`, `e ≤ 2045`, and `2^52 ≤ m` unless
`e = 0` (subnormals and the two zeros).  All NaNs are identified. -/
inductive float64 where
  | nan
  | inf (neg : Bool)
  | fin (neg : Bool) (m : Nat) (e : Nat)
deriving DecidableEq, Repr

namespace float64

/-- Binary search for the binary logarithm: from `2^acc ≤ n < 2^(acc + 2^k)` to the `l` with
`2^l ≤ n < 2^(l+1)`. -/
def log2Search (n : Nat) : Nat → Nat → Nat
  | 0, acc => acc
  | k + 1, acc =>
    if 2 ^ (acc + 2 ^ k) ≤ n then log2Search n k (acc + 2 ^ k) else log2Search n k acc

/-- The least `j ≥ k` with `n < 2^(2^j)`, looking at `fuel` candidates at most. -/
def log2Span (n : Nat) : Nat → Nat → Nat
  | 0, k => k
  | fuel + 1, k => if n < 2 ^ 2 ^ k then k else log2Span n fuel (k + 1)

/-- The binary logarithm of `n > 0`, rounded down: `2^(log2 n) ≤ n < 2^(log2 n + 1)`. -/
def log2 (n : Nat) : Nat := log2Search n (log2Span n n 0) 0

/-- Round the exact non-negative rational `n / d` (`d > 0`) to the nearest binary64 value of
sign `neg`, ties to even; overflow gives an infinity. -/
def roundQ (neg : Bool) (n d : Nat) : float64 :=
  if n = 0 then fin neg 0 0 else
  let N := n * 2 ^ 1074
  let l := log2 N - log2 d
  let fl := if d * 2 ^ l ≤ N then l else l - 1
  let e := fl - 52
  let D := d * 2 ^ e
  let q := N / D
  let r := N % D
  let q1 := if D < 2 * r ∨ (2 * r = D ∧ q % 2 = 1) then q + 1 else q
  let m := if q1 = 2 ^ 53 then 2 ^ 52 else q1
  let e1 := if q1 = 2 ^ 53 then e + 1 else e
  if 2045 < e1 then inf neg else fin neg m e1

/-- Go's `x + y` on `float64`. -/
def add : float64 → float64 → float64
  | nan, _ => nan
  | _, nan => nan
  | inf a, inf b => if a = b then inf a else nan
  | inf a, fin _ _ _ => inf a
  | fin _ _ _, inf b => inf b
  | fin s1 m1 e1, fin s2 m2 e2 =>
    let e := min e1 e2
    let a := m1 * 2 ^ (e1 - e)
    let b := m2 * 2 ^ (e2 - e)
    if s1 = s2 then roundQ s1 ((a + b) * 2 ^ e) (2 ^ 1074)
    else if b < a then roundQ s1 ((a - b) * 2 ^ e) (2 ^ 1074)
    else if a < b then roundQ s2 ((b - a) * 2 ^ e) (2 ^ 1074)
    else fin false 0 0

/-- Go's `x / y` on `float64`. -/
def div : float64 → float64 → float64
  | nan, _ => nan
  | _, nan => nan
  | inf _, inf _ => nan
  | inf a, fin b _ _ => inf (a != b)
  | fin a _ _, inf b => fin (a != b) 0 0
  | fin s1 m1 e1, fin s2 m2 e2 =>
    if m2 = 0 then (if m1 = 0 then nan else inf (s1 != s2))
    else roundQ (s1 != s2) (m1 * 2 ^ e1) (m2 * 2 ^ e2)

/-- The conversion `float64(n)` of a non-negative `int`, as in `float64(len(w))`. -/
def ofLen (n : Nat) : float64 := roundQ false n 1

/-- A decimal constant or decoded JSON number `n / d`, rounded to `float64`. -/
def ofDecimal (n d : Nat) : float64 := roundQ false n d

/-- The constant `0.0` (also the untyped `0` returned next to an error). -/
def zero : float64 := fin false 0 0

/-- The constant `273.15` of `weatherBit.temperature`. -/
def c273_15 : float64 := ofDecimal 27315 100

end float64

/-! ## Results of Go calls -/

/-- A Go `error` value that is not nil, identified by its message (`err.Error()`). -/
abbrev Err := String

/-- What a Go call does: it returns a value, or it panics. -/
inductive Outcome (α : Type) where
  | returned (a : α)
  | panicked (msg : String)
deriving DecidableEq, Repr

/-- The message of the run-time panic of `xs[i]` on a slice of length `n ≤ i`. -/
def indexPanic (i n : Nat) : String :=
  "runtime error: index out of range [" ++ toString i ++ "] with length " ++ toString n

/-! ## Collaborators: HTTP and JSON -/

/-- The inner object `main` of the openWeatherMap document. -/
structure mainDoc where
  Kelvin : float64
deriving DecidableEq, Repr

/-- The anonymous struct `d` decoded by `openWeatherMap.temperature`. -/
structure openWeatherMapDoc where
  Main : mainDoc
deriving DecidableEq, Repr

/-- One element of the `data` array of the weatherBit document. -/
structure dataDoc where
  Celsius : float64
deriving DecidableEq, Repr

/-- The anonymous struct `d` decoded by `weatherBit.temperature`. -/
structure weatherBitDoc where
  Data : List dataDoc
deriving DecidableEq, Repr

/-- The outside world of the providers: `Get url` is `http.Get(url)` (the response body, or the
transport error), the two decoders are `json.NewDecoder(resp.Body).Decode(&d)` at the two
anonymous struct types. -/
structure Net where
  Get : String → Except Err String
  DecodeMain : String → Except Err openWeatherMapDoc
  DecodeData : String → Except Err weatherBitDoc

/-! ## Providers -/

/-- The interface `weatherProvider`: anything with a method `temperature(city)`. -/
structure weatherProvider where
  temperature : String → Outcome (float64 × Option Err)

/-- The struct `openWeatherMap`. -/
structure openWeatherMap where
  url : String
deriving DecidableEq, Repr

/-- The struct `weatherBit`. -/
structure weatherBit where
  url : String
deriving DecidableEq, Repr

/-- The type `multiWeatherProvider`, a slice of providers. -/
abbrev multiWeatherProvider := List weatherProvider

/-- Method `openWeatherMap.temperature` (main.go 87-109). -/
def openWeatherMap.temperature (net : Net) (w : openWeatherMap) (city : String) :
    Outcome (float64 × Option Err) :=
  match net.Get (w.url ++ city) with
  | .error err => .returned (float64.zero, some err)
  | .ok body =>
    match net.DecodeMain body with
    | .error err => .returned (float64.zero, some err)
    | .ok d => .returned (d.Main.Kelvin, none)

/-- Method `weatherBit.temperature` (main.go 111-132); `d.Data[0]` panics on an empty slice. -/
def weatherBit.temperature (net : Net) (w : weatherBit) (city : String) :
    Outcome (float64 × Option Err) :=
  match net.Get (w.url ++ city) with
  | .error err => .returned (float64.zero, some err)
  | .ok body =>
    match net.DecodeData body with
    | .error err => .returned (float64.zero, some err)
    | .ok d =>
      match d.Data with
      | [] => .panicked (indexPanic 0 0)
      | first :: _ => .returned (float64.add first.Celsius float64.c273_15, none)

/-- An `openWeatherMap` value used at the interface type. -/
def openWeatherMap.toProvider (net : Net) (w : openWeatherMap) : weatherProvider :=
  ⟨openWeatherMap.temperature net w⟩

/-- A `weatherBit` value used at the interface type. -/
def weatherBit.toProvider (net : Net) (w : weatherBit) : weatherProvider :=
  ⟨weatherBit.temperature net w⟩

/-- The loop of the free function `temperature` from the providers still to visit and the
running `sum`; `n` is `len(providers)`. -/
def temperatureLoop (city : String) (n : Nat) :
    List weatherProvider → float64 → Outcome (float64 × Option Err)
  | [], sum => .returned (float64.div sum (float64.ofLen n), none)
  | provider :: rest, sum =>
    match provider.temperature city with
    | .panicked msg => .panicked msg
    | .returned (_, some _) => .returned (float64.zero, none)
    | .returned (k, none) => temperatureLoop city n rest (float64.add sum k)

/-- Function `temperature(city, providers...)` (main.go 134-146). -/
def temperature (city : String) (providers : List weatherProvider) :
    Outcome (float64 × Option Err) :=
  temperatureLoop city providers.length providers float64.zero

/-- The loop of `multiWeatherProvider.temperature` from the providers still to visit and the
running `sum`; `n` is `len(w)`. -/
def multiWeatherProvider.loop (city : String) (n : Nat) :
    List weatherProvider → float64 → Outcome (float64 × Option Err)
  | [], sum => .returned (float64.div sum (float64.ofLen n), none)
  | provider :: rest, sum =>
    match provider.temperature city with
    | .panicked msg => .panicked msg
    | .returned (_, some err) => .returned (float64.zero, some err)
    | .returned (k, none) => multiWeatherProvider.loop city n rest (float64.add sum k)

/-- Method `multiWeatherProvider.temperature` (main.go 148-162). -/
def multiWeatherProvider.temperature (w : multiWeatherProvider) (city : String) :
    Outcome (float64 × Option Err) :=
  multiWeatherProvider.loop city w.length w float64.zero

/-- A composite used at the interface type. -/
def multiWeatherProvider.toProvider (w : multiWeatherProvider) : weatherProvider :=
  ⟨multiWeatherProvider.temperature w⟩

/-! ## `strings.SplitN` -/

namespace strings

/-- Go's `strings.Index(s, sep)`: the position of the first occurrence of `sep` in `s`, if any
(Go returns `-1` for none). -/
def Index : List Char → List Char → Option Nat
  | [], sep => if sep = [] then some 0 else none
  | c :: cs, sep =>
    if sep.isPrefixOf (c :: cs) then some 0 else (Index cs sep).map (fun i => i + 1)

/-- The loop of `genSplit`: at most `k` further cuts of `s` at `sep`, then the remainder. -/
def splitLoop (sep : List Char) : Nat → List Char → List (List Char)
  | 0, s => [s]
  | k + 1, s =>
    match Index s sep with
    | none => [s]
    | some m => s.take m :: splitLoop sep k (s.drop (m + sep.length))

/-- Go's `explode(s, n)` for `n > 0`: one piece per character, at most `n` pieces, the last
one being the remainder. -/
def explode : List Char → Nat → List (List Char)
  | [], _ => []
  | _ :: _, 0 => []
  | c :: cs, 1 => [c :: cs]
  | c :: cs, k + 2 => if cs = [] then [[c]] else [c] :: explode cs (k + 1)

/-- Go's `strings.SplitN(s, sep, n)` for a count `n ≥ 0`: `nil` for `n = 0`, otherwise at most
`n` pieces of `s` cut at `sep`, the last piece being the unsplit remainder.  Go strings are
byte sequences; the separator of the program is the single ASCII byte `/`, which occurs in no
multi-byte UTF-8 sequence, so cutting character by character is cutting byte by byte. -/
def SplitN (s sep : String) (n : Nat) : List String :=
  if n = 0 then []
  else if sep.data = [] then (explode s.data n).map String.mk
  else (splitLoop sep.data (min n (s.data.length + 1) - 1) s.data).map String.mk

end strings

/-! ## The `/weather/` handler of `main` -/

/-- What the handler writes to the `http.ResponseWriter`: `json data` is the JSON content type
followed by `json.NewEncoder(w).Encode(data)` (which writes nothing for a NaN or an infinity,
its error being dropped), `error msg code` is `http.Error(w, msg, code)`. -/
inductive Response where
  | json (data : float64)
  | error (msg : String) (code : Nat)
deriving DecidableEq, Repr

/-- The constant `http.StatusInternalServerError`. -/
def StatusInternalServerError : Nat := 500

/-- The composite `mw` built by `main` (main.go 41-45); `getenv` is `os.Getenv`. -/
def mw (net : Net) (getenv : String → String) : multiWeatherProvider :=
  [ openWeatherMap.toProvider net
      ⟨"http://api.openweathermap.org/data/2.5/weather?APPID=" ++ getenv "OPENWEATHER" ++ "&q="⟩,
    weatherBit.toProvider net
      ⟨"https://api.weatherbit.io/v2.0/current?key=" ++ getenv "WEATHERBIT" ++ "&city="⟩ ]

/-- The function registered for `/weather/` (main.go 48-61), on the composite `mw` it closes
over and the request path `r.URL.Path`. -/
def weatherHandler (mw : multiWeatherProvider) (path : String) : Outcome Response :=
  let parts := strings.SplitN path "/" 3
  match parts[2]? with
  | none => .panicked (indexPanic 2 parts.length)
  | some city =>
    match mw[1]? with
    | none => .panicked (indexPanic 1 mw.length)
    | some provider =>
      match provider.temperature city with
      | .panicked msg => .panicked msg
      | .returned (_, some err) => .returned (.error err StatusInternalServerError)
      | .returned (data, none) => .returned (.json data)

/-! ## Closed inputs used to run the definitions -/

/-- A provider that returns the reading `k` and a nil error for every city. -/
def okProvider (k : float64) : weatherProvider := ⟨fun _ => .returned (k, none)⟩

/-- A provider that returns the error `err` for every city. -/
def failProvider (err : Err) : weatherProvider := ⟨fun _ => .returned (float64.zero, some err)⟩

/-- A network whose openWeatherMap document has `main.temp = k` and whose weatherBit document
has the array `data` of Celsius values `cs`. -/
def mockNet (k : float64) (cs : List float64) : Net where
  Get := fun url => .ok url
  DecodeMain := fun _ => .ok ⟨⟨k⟩⟩
  DecodeData := fun _ => .ok ⟨cs.map dataDoc.mk⟩

/-! ## Predicates on one provider call -/

/-- The provider `p` answers `city` with the reading `k` and a nil error. -/
def Reads (city : String) (p : weatherProvider) (k : float64) : Prop :=
  p.temperature city = .returned (k, none)

/-- The provider `p` answers `city` with a non-nil error. -/
def Fails (city : String) (p : weatherProvider) : Prop :=
  ∃ v e, p.temperature city = .returned (v, some e)

/-- The call `p.temperature(city)` returns (it does not panic). -/
def Returns (city : String) (p : weatherProvider) : Prop :=
  ∃ r, p.temperature city = .returned r

set_option exponentiation.threshold 5000

/-! ## The model of `float64` rounds correctly -/

/-- The binary search keeps `2^acc ≤ n < 2^(acc + 2^k)` and ends with `k = 0`. -/
theorem log2Search_bounds (n : Nat) (k : Nat) : ∀ acc : Nat, 2 ^ acc ≤ n → n < 2 ^ (acc + 2 ^ k) →
    2 ^ float64.log2Search n k acc ≤ n ∧ n < 2 ^ (float64.log2Search n k acc + 1) := by
  induction k with
  | zero =>
    intro acc hlo hhi
    simpa [float64.log2Search] using ⟨hlo, hhi⟩
  | succ k ih =>
    intro acc hlo hhi
    unfold float64.log2Search
    split
    · next h =>
      apply ih _ h
      have : acc + 2 ^ k + 2 ^ k = acc + 2 ^ (k + 1) := by rw [pow_succ]; omega
      rw [this]
      exact hhi
    · next h => exact ih _ hlo (Nat.lt_of_not_le h)

/-- With enough candidates `log2Span` finds a `j` with `n < 2^(2^j)`. -/
theorem log2Span_bound (n : Nat) (fuel : Nat) : ∀ k : Nat, n < 2 ^ 2 ^ (k + fuel) →
    n < 2 ^ 2 ^ float64.log2Span n fuel k := by
  induction fuel with
  | zero => intro k h; simpa [float64.log2Span] using h
  | succ fuel ih =>
    intro k h
    unfold float64.log2Span
    split
    · next hk => exact hk
    · apply ih
      have : k + 1 + fuel = k + (fuel + 1) := by omega
      rw [this]
      exact h

/-- The function `float64.log2` is the binary logarithm rounded down. -/
theorem log2_bounds (n : Nat) (hn : 0 < n) :
    2 ^ float64.log2 n ≤ n ∧ n < 2 ^ (float64.log2 n + 1) := by
  unfold float64.log2
  apply log2Search_bounds
  · simpa using hn
  · rw [Nat.zero_add]
    apply log2Span_bound
    rw [Nat.zero_add]
    calc n < 2 ^ n := Nat.lt_two_pow n
      _ ≤ 2 ^ 2 ^ n := Nat.pow_le_pow_right (by decide) (Nat.lt_two_pow n).le

/-- The exponent chosen by `roundQ`: `N < d * 2^(fl+1)`, and `d * 2^fl ≤ N` unless `fl = 0`. -/
theorem quotient_log2 (N d : Nat) (hN : 0 < N) (hd : 0 < d) :
    let l := float64.log2 N - float64.log2 d
    let fl := if d * 2 ^ l ≤ N then l else l - 1
    N < d * 2 ^ (fl + 1) ∧ (d * 2 ^ fl ≤ N ∨ fl = 0) := by
  intro l fl
  obtain ⟨ha, ha'⟩ := log2_bounds N hN
  obtain ⟨hb, hb'⟩ := log2_bounds d hd
  have hup : N < d * 2 ^ (l + 1) := by
    calc N < 2 ^ (float64.log2 N + 1) := ha'
      _ ≤ 2 ^ (float64.log2 d + (l + 1)) := Nat.pow_le_pow_right (by decide) (by omega)
      _ = 2 ^ float64.log2 d * 2 ^ (l + 1) := pow_add 2 _ _
      _ ≤ d * 2 ^ (l + 1) := Nat.mul_le_mul_right _ hb
  by_cases h : d * 2 ^ l ≤ N
  · have hfl : fl = l := if_pos h
    rw [hfl]
    exact ⟨hup, Or.inl h⟩
  · have hfl : fl = l - 1 := if_neg h
    rw [hfl]
    by_cases hl : l = 0
    · rw [hl]
      rw [hl] at h
      refine ⟨?_, Or.inr rfl⟩
      simp at h ⊢
      omega
    · have hl1 : l - 1 + 1 = l := by omega
      rw [hl1]
      refine ⟨Nat.lt_of_not_le h, Or.inl ?_⟩
      -- d * 2^(l-1) ≤ N : d < 2^(b+1), N ≥ 2^a = 2^(b + l)
      have hlab : float64.log2 N = float64.log2 d + l := by omega
      calc d * 2 ^ (l - 1) ≤ 2 ^ (float64.log2 d + 1) * 2 ^ (l - 1) :=
            Nat.mul_le_mul_right _ hb'.le
        _ = 2 ^ (float64.log2 d + 1 + (l - 1)) := (pow_add 2 _ _).symm
        _ = 2 ^ float64.log2 N := by congr 1; omega
        _ ≤ N := ha

/-- Rounding of one quotient: with `N = D * q + r`, `r < D`, the mantissa `q1` chosen by
`roundQ` is within half a unit of `N / D`, and even on a tie. -/
theorem round_half_even (N D : Nat) (hD : 0 < D) :
    let q := N / D
    let r := N % D
    let q1 := if D < 2 * r ∨ (2 * r = D ∧ q % 2 = 1) then q + 1 else q
    q ≤ q1 ∧ q1 ≤ q + 1 ∧ 2 * (N - q1 * D) ≤ D ∧ 2 * (q1 * D - N) ≤ D ∧
      ((2 * (N - q1 * D) = D ∨ 2 * (q1 * D - N) = D) → q1 % 2 = 0) ∧
      (q1 = q + 1 → (2 * q + 1) * D ≤ 2 * N) := by
  intro q r q1
  have hdiv : D * q + r = N := Nat.div_add_mod N D
  have hr : r < D := Nat.mod_lt N hD
  have hqD : q * D = D * q := Nat.mul_comm _ _
  by_cases c : D < 2 * r ∨ (2 * r = D ∧ q % 2 = 1)
  · have hq1 : q1 = q + 1 := if_pos c
    have h1 : (q + 1) * D = D * q + D := by ring
    have h2 : (2 * q + 1) * D = 2 * (D * q) + D := by ring
    rw [hq1, h1, h2]
    generalize D * q = P at *
    refine ⟨by omega, by omega, by omega, by omega, ?_, fun _ => by omega⟩
    intro ht
    rcases c with c | ⟨_, codd⟩
    · omega
    · omega
  · have hq1 : q1 = q := if_neg c
    rw [hq1, hqD]
    have c1 : ¬ D < 2 * r := fun h => c (Or.inl h)
    have c2 : 2 * r = D → q % 2 = 0 := by
      intro h
      by_contra hne
      exact c (Or.inr ⟨h, by omega⟩)
    generalize D * q = P at *
    refine ⟨by omega, by omega, by omega, by omega, ?_, fun h => by omega⟩
    intro ht
    apply c2
    omega

/-- The function `roundQ` rounds to nearest, ties to even: for `n, d > 0` the result is either
an infinity, and then `n / d` is at least the largest finite value plus half a unit in the last
place, or a canonical finite value `m * 2^(e - 1074)` at most half a unit `2^(e - 1074) / 2`
away from `n / d`, with `m` even when exactly half a unit away. -/
theorem roundQ_nearest (neg : Bool) (n d : Nat) (hn : 0 < n) (hd : 0 < d) :
    (float64.roundQ neg n d = .inf neg ∧ (2 ^ 54 - 1) * (d * 2 ^ 2045) ≤ 2 * (n * 2 ^ 1074)) ∨
    ∃ m e, float64.roundQ neg n d = .fin neg m e ∧ m < 2 ^ 53 ∧ (e = 0 ∨ 2 ^ 52 ≤ m) ∧
      e ≤ 2045 ∧
      2 * (n * 2 ^ 1074 - m * (d * 2 ^ e)) ≤ d * 2 ^ e ∧
      2 * (m * (d * 2 ^ e) - n * 2 ^ 1074) ≤ d * 2 ^ e ∧
      ((2 * (n * 2 ^ 1074 - m * (d * 2 ^ e)) = d * 2 ^ e ∨
        2 * (m * (d * 2 ^ e) - n * 2 ^ 1074) = d * 2 ^ e) → m % 2 = 0) := by
  have hN : 0 < n * 2 ^ 1074 := Nat.mul_pos hn (Nat.two_pow_pos _)
  obtain ⟨hup, hlo⟩ := quotient_log2 (n * 2 ^ 1074) d hN hd
  unfold float64.roundQ
  rw [if_neg (Nat.pos_iff_ne_zero.mp hn)]
  simp only []
  generalize n * 2 ^ 1074 = N at *
  generalize (if d * 2 ^ (float64.log2 N - float64.log2 d) ≤ N
    then float64.log2 N - float64.log2 d else float64.log2 N - float64.log2 d - 1) = fl at *
  have hD : 0 < d * 2 ^ (fl - 52) := Nat.mul_pos hd (Nat.two_pow_pos _)
  have hq : N / (d * 2 ^ (fl - 52)) < 2 ^ 53 := by
    rw [Nat.div_lt_iff_lt_mul hD]
    calc N < d * 2 ^ (fl + 1) := hup
      _ ≤ d * 2 ^ (53 + (fl - 52)) :=
        Nat.mul_le_mul_left _ (Nat.pow_le_pow_right (by decide) (by omega))
      _ = 2 ^ 53 * (d * 2 ^ (fl - 52)) := by rw [pow_add]; ring
  have hqlo : fl - 52 = 0 ∨ 2 ^ 52 ≤ N / (d * 2 ^ (fl - 52)) := by
    by_cases he : fl - 52 = 0
    · exact Or.inl he
    · right
      rw [Nat.le_div_iff_mul_le hD]
      have hfl : fl = 52 + (fl - 52) := by omega
      rcases hlo with hlo | hlo
      · calc 2 ^ 52 * (d * 2 ^ (fl - 52)) = d * 2 ^ (52 + (fl - 52)) := by rw [pow_add]; ring
          _ = d * 2 ^ fl := by rw [← hfl]
          _ ≤ N := hlo
      · omega
  have hbig : 2045 < fl - 52 → 2 ^ 54 * (d * 2 ^ 2045) ≤ 2 * N := by
    intro he
    have hfl : fl = 53 + 2045 + (fl - 52 - 2046) := by omega
    rcases hlo with hlo | hlo
    · calc 2 ^ 54 * (d * 2 ^ 2045) = 2 * (d * 2 ^ (53 + 2045)) := by rw [pow_add]; ring
        _ ≤ 2 * (d * 2 ^ fl) :=
          Nat.mul_le_mul_left _ (Nat.mul_le_mul_left _ (Nat.pow_le_pow_right (by decide) (by omega)))
        _ ≤ 2 * N := Nat.mul_le_mul_left _ hlo
    · omega
  have hDbig : 2045 ≤ fl - 52 → d * 2 ^ 2045 ≤ d * 2 ^ (fl - 52) := fun he =>
    Nat.mul_le_mul_left _ (Nat.pow_le_pow_right (by decide) he)
  have hD2 : d * 2 ^ (fl - 52 + 1) = 2 * (d * 2 ^ (fl - 52)) := by rw [pow_succ]; ring
  obtain ⟨h1, h2, h3, h4, h5, h6⟩ := round_half_even N (d * 2 ^ (fl - 52)) hD
  generalize (if d * 2 ^ (fl - 52) < 2 * (N % (d * 2 ^ (fl - 52))) ∨
      2 * (N % (d * 2 ^ (fl - 52))) = d * 2 ^ (fl - 52) ∧ N / (d * 2 ^ (fl - 52)) % 2 = 1
    then N / (d * 2 ^ (fl - 52)) + 1 else N / (d * 2 ^ (fl - 52))) = q1 at *
  generalize N / (d * 2 ^ (fl - 52)) = q at *
  generalize hDe : d * 2 ^ (fl - 52) = D at *
  generalize fl - 52 = e at *
  by_cases hc : q1 = 2 ^ 53
  · rw [if_pos hc, if_pos hc]
    have hq1 : q1 = q + 1 := by omega
    have h6' := h6 hq1
    have hqv : 2 * q + 1 = 2 ^ 54 - 1 := by omega
    rw [hqv] at h6'
    by_cases hov : 2045 < e + 1
    · left
      rw [if_pos hov]
      refine ⟨rfl, ?_⟩
      exact le_trans (Nat.mul_le_mul_left _ (hDbig (by omega))) h6'
    · right
      rw [if_neg hov]
      refine ⟨2 ^ 52, e + 1, rfl, by norm_num, Or.inr le_rfl, by omega, ?_, ?_, fun _ => by norm_num⟩
      · rw [hD2]
        have : 2 ^ 52 * (2 * D) = q1 * D := by rw [hc]; ring
        rw [this]; omega
      · rw [hD2]
        have : 2 ^ 52 * (2 * D) = q1 * D := by rw [hc]; ring
        rw [this]; omega
  · rw [if_neg hc, if_neg hc]
    by_cases hov : 2045 < e
    · left
      rw [if_pos hov]
      refine ⟨rfl, ?_⟩
      have := hbig hov
      have h54 : (2 ^ 54 - 1) * (d * 2 ^ 2045) ≤ 2 ^ 54 * (d * 2 ^ 2045) :=
        Nat.mul_le_mul_right _ (by norm_num)
      omega
    · right
      rw [if_neg hov]
      refine ⟨q1, e, rfl, by omega, ?_, by omega, ?_, ?_, ?_⟩
      · rcases hqlo with h | h
        · exact Or.inl h
        · exact Or.inr (by omega)
      · rw [hDe]; exact h3
      · rw [hDe]; exact h4
      · rw [hDe]; exact h5

/-! ## The two aggregation loops -/

theorem loop_of_readings (city : String) (n : Nat) (w : List weatherProvider)
    (ks : List float64) (h : List.Forall₂ (Reads city) w ks) (sum : float64) :
    multiWeatherProvider.loop city n w sum
      = .returned (float64.div (ks.foldl float64.add sum) (float64.ofLen n), none) := by
  induction h generalizing sum with
  | nil => rfl
  | cons hp _ ih =>
    unfold Reads at hp
    simp only [multiWeatherProvider.loop, hp, List.foldl_cons]
    exact ih _

theorem loop_of_first_failure (city : String) (n : Nat) (pre : List weatherProvider)
    (ks : List float64) (h : List.Forall₂ (Reads city) pre ks) (p : weatherProvider)
    (post : List weatherProvider) (v : float64) (e : Err)
    (hp : p.temperature city = .returned (v, some e)) (sum : float64) :
    multiWeatherProvider.loop city n (pre ++ p :: post) sum
      = .returned (float64.zero, some e) := by
  induction h generalizing sum with
  | nil => simp only [List.nil_append, multiWeatherProvider.loop, hp]
  | cons hq _ ih =>
    unfold Reads at hq
    simp only [List.cons_append, multiWeatherProvider.loop, hq]
    exact ih _

theorem temperatureLoop_of_first_failure (city : String) (n : Nat)
    (pre : List weatherProvider) (ks : List float64) (h : List.Forall₂ (Reads city) pre ks)
    (p : weatherProvider) (post : List weatherProvider) (v : float64) (e : Err)
    (hp : p.temperature city = .returned (v, some e)) (sum : float64) :
    temperatureLoop city n (pre ++ p :: post) sum = .returned (float64.zero, none) := by
  induction h generalizing sum with
  | nil => simp only [List.nil_append, temperatureLoop, hp]
  | cons hq _ ih =>
    unfold Reads at hq
    simp only [List.cons_append, temperatureLoop, hq]
    exact ih _

/-- A call that returns either gives a reading with a nil error or fails. -/
theorem reads_or_fails (city : String) (p : weatherProvider) (h : Returns city p) :
    (∃ k, Reads city p k) ∨ Fails city p := by
  obtain ⟨⟨v, oe⟩, hr⟩ := h
  cases oe with
  | none => exact Or.inl ⟨v, hr⟩
  | some e => exact Or.inr ⟨v, e, hr⟩

/-- A list whose calls all return and one of which fails splits at its first failure. -/
theorem split_first_failure (city : String) (w : List weatherProvider)
    (hret : ∀ q ∈ w, Returns city q) (hfail : ∃ q ∈ w, Fails city q) :
    ∃ pre ks p post v e, w = pre ++ p :: post ∧ List.Forall₂ (Reads city) pre ks ∧
      p.temperature city = .returned (v, some e) := by
  induction w with
  | nil => obtain ⟨q, hq, _⟩ := hfail; cases hq
  | cons a rest ih =>
    rcases reads_or_fails city a (hret a (List.mem_cons_self a rest)) with ⟨k, hk⟩ | ⟨v, e, hv⟩
    · have hrest : ∃ q ∈ rest, Fails city q := by
        obtain ⟨q, hq, v, e, hqe⟩ := hfail
        rcases List.mem_cons.mp hq with rfl | hmem
        · unfold Reads at hk
          rw [hk] at hqe
          cases hqe
        · exact ⟨q, hmem, v, e, hqe⟩
      obtain ⟨pre, ks, p, post, v, e, hw, hpre, hp⟩ :=
        ih (fun q hq => hret q (List.mem_cons_of_mem a hq)) hrest
      exact ⟨a :: pre, k :: ks, p, post, v, e, by rw [hw, List.cons_append],
        List.Forall₂.cons hk hpre, hp⟩
    · exact ⟨[], [], a, rest, v, e, rfl, List.Forall₂.nil, hv⟩

/-- A list whose calls all return and none of which fails gives one reading per provider. -/
theorem readings_of_no_failure (city : String) (w : List weatherProvider)
    (hret : ∀ q ∈ w, Returns city q) (hno : ¬ ∃ q ∈ w, Fails city q) :
    ∃ ks, List.Forall₂ (Reads city) w ks := by
  induction w with
  | nil => exact ⟨[], List.Forall₂.nil⟩
  | cons a rest ih =>
    obtain ⟨ks, hks⟩ := ih (fun q hq => hret q (List.mem_cons_of_mem a hq))
      (fun ⟨q, hq, hf⟩ => hno ⟨q, List.mem_cons_of_mem a hq, hf⟩)
    rcases reads_or_fails city a (hret a (List.mem_cons_self a rest)) with ⟨k, hk⟩ | hf
    · exact ⟨k :: ks, List.Forall₂.cons hk hks⟩
    · exact absurd ⟨a, List.mem_cons_self a rest, hf⟩ hno

/-- With a failing provider in the list the composite returns 0 and the error of one of the
failing providers. -/
theorem temperature_of_failure (city : String) (w : multiWeatherProvider)
    (hret : ∀ q ∈ w, Returns city q) (hfail : ∃ q ∈ w, Fails city q) :
    ∃ p ∈ w, ∃ v e, p.temperature city = .returned (v, some e) ∧
      multiWeatherProvider.temperature w city = .returned (float64.zero, some e) := by
  obtain ⟨pre, ks, p, post, v, e, hw, hpre, hp⟩ := split_first_failure city w hret hfail
  refine ⟨p, by rw [hw]; simp, v, e, hp, ?_⟩
  unfold multiWeatherProvider.temperature
  rw [hw]
  exact loop_of_first_failure city _ pre ks hpre p post v e hp float64.zero

/-- Without a failing provider in the list the composite returns a nil error. -/
theorem temperature_of_no_failure (city : String) (w : multiWeatherProvider)
    (hret : ∀ q ∈ w, Returns city q) (hno : ¬ ∃ q ∈ w, Fails city q) :
    ∃ k, multiWeatherProvider.temperature w city = .returned (k, none) := by
  obtain ⟨ks, hks⟩ := readings_of_no_failure city w hret hno
  exact ⟨_, loop_of_readings city w.length w ks hks float64.zero⟩

/-! ## The claims -/

/-- C1: when the providers of a composite answer `city` with the readings `k1..kN` (all with
a nil error), `multiWeatherProvider.temperature` returns a nil error and the value
`(0.0 + k1 + ... + kN) / float64(N)`, the sum taken left to right in list order. -/
theorem composite_average (city : String) (w : multiWeatherProvider) (ks : List float64)
    (h : List.Forall₂ (Reads city) w ks) :
    multiWeatherProvider.temperature w city
      = .returned (float64.div (ks.foldl float64.add float64.zero) (float64.ofLen ks.length),
          none) := by
  have hlen : w.length = ks.length := h.length_eq
  unfold multiWeatherProvider.temperature
  rw [loop_of_readings city w.length w ks h float64.zero, hlen]

/-- Witness of C1: the readings 290 and 280 average to 285. -/
theorem composite_average_witness :
    multiWeatherProvider.temperature
        [okProvider (float64.ofLen 290), okProvider (float64.ofLen 280)] "London"
      = .returned (float64.ofLen 285, none) := by
  have h := composite_average "London"
    [okProvider (float64.ofLen 290), okProvider (float64.ofLen 280)]
    [float64.ofLen 290, float64.ofLen 280]
    (List.Forall₂.cons rfl (List.Forall₂.cons rfl List.Forall₂.nil))
  rw [h]
  decide

/-- C2: in a composite whose calls all return and at least one of which fails, the list splits
at its first failing provider, every provider before it gave a reading, and
`multiWeatherProvider.temperature` returns the value 0 together with the error of that first
failing provider. -/
theorem composite_fail_fast (city : String) (w : multiWeatherProvider)
    (hret : ∀ q ∈ w, Returns city q) (hfail : ∃ q ∈ w, Fails city q) :
    ∃ pre ks p post v e, w = pre ++ p :: post ∧ List.Forall₂ (Reads city) pre ks ∧
      p.temperature city = .returned (v, some e) ∧
      multiWeatherProvider.temperature w city = .returned (float64.zero, some e) := by
  obtain ⟨pre, ks, p, post, v, e, hw, hpre, hp⟩ := split_first_failure city w hret hfail
  refine ⟨pre, ks, p, post, v, e, hw, hpre, hp, ?_⟩
  unfold multiWeatherProvider.temperature
  rw [hw]
  exact loop_of_first_failure city _ pre ks hpre p post v e hp float64.zero

/-- Witness of C2: a reading, then the error `boom`, then the error `later`. -/
theorem composite_fail_fast_witness :
    (∀ q ∈ [okProvider (float64.ofLen 290), failProvider "boom", failProvider "later"],
        Returns "London" q) ∧
    (∃ q ∈ [okProvider (float64.ofLen 290), failProvider "boom", failProvider "later"],
        Fails "London" q) ∧
    ∃ pre ks p post v e,
      [okProvider (float64.ofLen 290), failProvider "boom", failProvider "later"]
        = pre ++ p :: post ∧ List.Forall₂ (Reads "London") pre ks ∧
      p.temperature "London" = .returned (v, some e) ∧
      multiWeatherProvider.temperature
        [okProvider (float64.ofLen 290), failProvider "boom", failProvider "later"] "London"
        = .returned (float64.zero, some e) :=
  have hret : ∀ q ∈ [okProvider (float64.ofLen 290), failProvider "boom", failProvider "later"],
      Returns "London" q := by
    intro q hq
    simp only [List.mem_cons, List.mem_singleton, List.not_mem_nil, or_false] at hq
    rcases hq with rfl | rfl | rfl
    · exact ⟨_, rfl⟩
    · exact ⟨_, rfl⟩
    · exact ⟨_, rfl⟩
  have hfail : ∃ q ∈ [okProvider (float64.ofLen 290), failProvider "boom", failProvider "later"],
      Fails "London" q :=
    ⟨failProvider "boom", by simp, float64.zero, "boom", rfl⟩
  ⟨hret, hfail, composite_fail_fast "London" _ hret hfail⟩

/-- C8: on a list whose calls all return and at least one of which fails, the free function
`temperature` returns the value 0 with a nil error, whereas `multiWeatherProvider.temperature`
returns a non-nil error. -/
theorem variadic_discards_error (city : String) (providers : List weatherProvider)
    (hret : ∀ q ∈ providers, Returns city q) (hfail : ∃ q ∈ providers, Fails city q) :
    temperature city providers = .returned (float64.zero, none) ∧
    ∃ e, multiWeatherProvider.temperature providers city = .returned (float64.zero, some e) := by
  obtain ⟨pre, ks, p, post, v, e, hw, hpre, hp⟩ := split_first_failure city providers hret hfail
  constructor
  · unfold temperature
    rw [hw]
    exact temperatureLoop_of_first_failure city _ pre ks hpre p post v e hp float64.zero
  · refine ⟨e, ?_⟩
    unfold multiWeatherProvider.temperature
    rw [hw]
    exact loop_of_first_failure city _ pre ks hpre p post v e hp float64.zero

/-- Witness of C8: a reading followed by the error `boom`. -/
theorem variadic_discards_error_witness :
    temperature "London" [okProvider (float64.ofLen 290), failProvider "boom"]
      = .returned (float64.zero, none) ∧
    ∃ e, multiWeatherProvider.temperature
      [okProvider (float64.ofLen 290), failProvider "boom"] "London"
      = .returned (float64.zero, some e) :=
  variadic_discards_error "London" [okProvider (float64.ofLen 290), failProvider "boom"]
    (by
      intro q hq
      simp only [List.mem_cons, List.mem_singleton, List.not_mem_nil, or_false] at hq
      rcases hq with rfl | rfl
      · exact ⟨_, rfl⟩
      · exact ⟨_, rfl⟩)
    ⟨failProvider "boom", by simp, float64.zero, "boom", rfl⟩

/-- C9: on the empty composite `multiWeatherProvider.temperature` returns a nil error and the
value `0.0 / float64(0)`, which is NaN. -/
theorem composite_empty_nan (city : String) :
    multiWeatherProvider.temperature [] city
      = .returned (float64.div float64.zero (float64.ofLen 0), none) ∧
    float64.div float64.zero (float64.ofLen 0) = float64.nan :=
  ⟨rfl, by decide⟩

/-- C3: when the weatherBit response decodes to a document whose `data` array is empty,
`weatherBit.temperature` does not return an error: the index `d.Data[0]` panics. -/
theorem weatherBit_empty_data_panics (net : Net) (w : weatherBit) (city body : String)
    (d : weatherBitDoc) (hget : net.Get (w.url ++ city) = .ok body)
    (hdec : net.DecodeData body = .ok d) (hdata : d.Data = []) :
    weatherBit.temperature net w city = .panicked (indexPanic 0 0) ∧
    ¬ ∃ v e, weatherBit.temperature net w city = .returned (v, some e) := by
  have h : weatherBit.temperature net w city = .panicked (indexPanic 0 0) := by
    simp only [weatherBit.temperature, hget, hdec, hdata]
  refine ⟨h, ?_⟩
  rintro ⟨v, e, hv⟩
  rw [h] at hv
  cases hv

/-- Witness of C3: the body decodes to `data: []`. -/
theorem weatherBit_empty_data_panics_witness :
    weatherBit.temperature (mockNet float64.zero []) ⟨"https://wb/?city="⟩ "London"
      = .panicked "runtime error: index out of range [0] with length 0" ∧
    ¬ ∃ v e, weatherBit.temperature (mockNet float64.zero []) ⟨"https://wb/?city="⟩ "London"
      = .returned (v, some e) :=
  weatherBit_empty_data_panics (mockNet float64.zero []) ⟨"https://wb/?city="⟩ "London"
    "https://wb/?city=London" ⟨[]⟩ rfl rfl rfl

/-- C4: when the weatherBit response decodes to a document whose `data` array starts with an
element of `temp = C`, `weatherBit.temperature` returns a nil error and `C + 273.15`, whatever
the later elements are. -/
theorem weatherBit_first_celsius (net : Net) (w : weatherBit) (city body : String)
    (d : weatherBitDoc) (first : dataDoc) (rest : List dataDoc)
    (hget : net.Get (w.url ++ city) = .ok body) (hdec : net.DecodeData body = .ok d)
    (hdata : d.Data = first :: rest) :
    weatherBit.temperature net w city
      = .returned (float64.add first.Celsius float64.c273_15, none) := by
  simp only [weatherBit.temperature, hget, hdec, hdata]

/-- Witness of C4: `data: [{temp: 26.85}, {temp: 7}]` yields `300.0`. -/
theorem weatherBit_first_celsius_witness :
    weatherBit.temperature (mockNet float64.zero [float64.ofDecimal 2685 100, float64.ofLen 7])
        ⟨"https://wb/?city="⟩ "London"
      = .returned (float64.ofDecimal 300 1, none) := by
  have h := weatherBit_first_celsius
    (mockNet float64.zero [float64.ofDecimal 2685 100, float64.ofLen 7])
    ⟨"https://wb/?city="⟩ "London" "https://wb/?city=London"
    ⟨[⟨float64.ofDecimal 2685 100⟩, ⟨float64.ofLen 7⟩]⟩ ⟨float64.ofDecimal 2685 100⟩
    [⟨float64.ofLen 7⟩] rfl rfl rfl
  rw [h]
  decide

/-- C5: when the openWeatherMap response decodes to a document with `main.temp = K`,
`openWeatherMap.temperature` returns a nil error and exactly `K`. -/
theorem openWeatherMap_kelvin (net : Net) (w : openWeatherMap) (city body : String)
    (d : openWeatherMapDoc) (hget : net.Get (w.url ++ city) = .ok body)
    (hdec : net.DecodeMain body = .ok d) :
    openWeatherMap.temperature net w city = .returned (d.Main.Kelvin, none) := by
  simp only [openWeatherMap.temperature, hget, hdec]

/-- Witness of C5: `main.temp = 300.0` yields `300.0`. -/
theorem openWeatherMap_kelvin_witness :
    openWeatherMap.temperature (mockNet (float64.ofDecimal 300 1) []) ⟨"http://owm/?q="⟩
        "London"
      = .returned (float64.ofDecimal 300 1, none) :=
  openWeatherMap_kelvin (mockNet (float64.ofDecimal 300 1) []) ⟨"http://owm/?q="⟩ "London"
    "http://owm/?q=London" ⟨⟨float64.ofDecimal 300 1⟩⟩ rfl rfl

/-- C7: on `GET /weather/London`, with the openWeatherMap document at 290 K and the weatherBit
document at 6.85 degrees Celsius (280 K), the handler of `main` answers 280, the reading of
`mw[1]` alone, while the composite `mw` averages to 285. -/
theorem handler_answers_second_provider :
    weatherHandler (mw (mockNet (float64.ofLen 290) [float64.ofDecimal 685 100]) (fun _ => "key"))
        "/weather/London"
      = .returned (.json (float64.ofLen 280)) ∧
    multiWeatherProvider.temperature
        (mw (mockNet (float64.ofLen 290) [float64.ofDecimal 685 100]) (fun _ => "key")) "London"
      = .returned (float64.ofLen 285, none) ∧
    float64.ofLen 280 ≠ float64.ofLen 285 := by
  decide

/-- C10: for every string `c`, `strings.SplitN("/weather/" + c, "/", 3)` has exactly the three
parts `""`, `"weather"` and `c`, so the index `[2]` of the handler is in bounds and is `c`. -/
theorem city_extraction (c : String) :
    strings.SplitN ("/weather/" ++ c) "/" 3 = ["", "weather", c] ∧
    (strings.SplitN ("/weather/" ++ c) "/" 3).length = 3 ∧
    (strings.SplitN ("/weather/" ++ c) "/" 3)[2]? = some c := by
  have h : strings.SplitN ("/weather/" ++ c) "/" 3 = ["", "weather", c] := by
    have hd : ("/weather/" ++ c).data
        = '/' :: 'w' :: 'e' :: 'a' :: 't' :: 'h' :: 'e' :: 'r' :: '/' :: c.data := by
      rw [String.data_append]; rfl
    have hs : ("/" : String).data = ['/'] := rfl
    simp [strings.SplitN, hd, hs, strings.splitLoop, strings.Index]
  rw [h]
  exact ⟨rfl, rfl, rfl⟩

/-- C6, as stated, fails: swapping two providers that fail with different errors changes the
error returned, and reversing the readings 270.0, 271.2, 270.2 changes the average. -/
theorem composite_order_matters :
    List.Perm [failProvider "first", failProvider "second"]
      [failProvider "second", failProvider "first"] ∧
    multiWeatherProvider.temperature [failProvider "first", failProvider "second"] "London"
      ≠ multiWeatherProvider.temperature [failProvider "second", failProvider "first"]
          "London" ∧
    List.Perm
      [okProvider (float64.ofDecimal 2700 10), okProvider (float64.ofDecimal 2712 10),
        okProvider (float64.ofDecimal 2702 10)]
      [okProvider (float64.ofDecimal 2702 10), okProvider (float64.ofDecimal 2712 10),
        okProvider (float64.ofDecimal 2700 10)] ∧
    multiWeatherProvider.temperature
      [okProvider (float64.ofDecimal 2700 10), okProvider (float64.ofDecimal 2712 10),
        okProvider (float64.ofDecimal 2702 10)] "London"
      ≠ multiWeatherProvider.temperature
          [okProvider (float64.ofDecimal 2702 10), okProvider (float64.ofDecimal 2712 10),
            okProvider (float64.ofDecimal 2700 10)] "London" := by
  refine ⟨List.Perm.swap _ _ _, by decide, ?_, by decide⟩
  exact List.reverse_perm
    [okProvider (float64.ofDecimal 2702 10), okProvider (float64.ofDecimal 2712 10),
      okProvider (float64.ofDecimal 2700 10)]

/-- C6, amended: for a composite whose calls all return and any permutation of it, the
composite fails (value 0, non-nil error) on the one list exactly when it does on the other, it
returns a nil error on the one exactly when it does on the other, and when it fails and all
failing providers report the same error the two results are equal. -/
theorem composite_order_failure_status (city : String) (w w' : multiWeatherProvider)
    (hperm : List.Perm w w') (hret : ∀ q ∈ w, Returns city q) :
    ((∃ e, multiWeatherProvider.temperature w city = .returned (float64.zero, some e)) ↔
      (∃ e, multiWeatherProvider.temperature w' city = .returned (float64.zero, some e))) ∧
    ((∃ k, multiWeatherProvider.temperature w city = .returned (k, none)) ↔
      (∃ k, multiWeatherProvider.temperature w' city = .returned (k, none))) ∧
    (∀ e, (∃ q ∈ w, Fails city q) →
      (∀ q ∈ w, ∀ v e', q.temperature city = .returned (v, some e') → e' = e) →
      multiWeatherProvider.temperature w city = multiWeatherProvider.temperature w' city) := by
  have hret' : ∀ q ∈ w', Returns city q := fun q hq => hret q (hperm.mem_iff.mpr hq)
  by_cases hfail : ∃ q ∈ w, Fails city q
  · have hfail' : ∃ q ∈ w', Fails city q := by
      obtain ⟨q, hq, hf⟩ := hfail
      exact ⟨q, hperm.mem_iff.mp hq, hf⟩
    obtain ⟨p, hp, v, e, hpe, hT⟩ := temperature_of_failure city w hret hfail
    obtain ⟨p', hp', v', e', hpe', hT'⟩ := temperature_of_failure city w' hret' hfail'
    refine ⟨⟨fun _ => ⟨e', hT'⟩, fun _ => ⟨e, hT⟩⟩, ⟨?_, ?_⟩, ?_⟩
    · rintro ⟨k, hk⟩
      rw [hT] at hk
      cases hk
    · rintro ⟨k, hk⟩
      rw [hT'] at hk
      cases hk
    · intro e0 _ hsame
      have h1 : e = e0 := hsame p hp v e hpe
      have h2 : e' = e0 := hsame p' (hperm.mem_iff.mpr hp') v' e' hpe'
      rw [hT, hT', h1, h2]
  · have hno' : ¬ ∃ q ∈ w', Fails city q := by
      rintro ⟨q, hq, hf⟩
      exact hfail ⟨q, hperm.mem_iff.mpr hq, hf⟩
    obtain ⟨k, hT⟩ := temperature_of_no_failure city w hret hfail
    obtain ⟨k', hT'⟩ := temperature_of_no_failure city w' hret' hno'
    refine ⟨⟨?_, ?_⟩, ⟨fun _ => ⟨k', hT'⟩, fun _ => ⟨k, hT⟩⟩, ?_⟩
    · rintro ⟨e, he⟩
      rw [hT] at he
      cases he
    · rintro ⟨e, he⟩
      rw [hT'] at he
      cases he
    · intro _ h _
      exact absurd h hfail

/-- Witness of C6, amended: a failing provider before or after a reading. -/
theorem composite_order_failure_status_witness :
    List.Perm [failProvider "boom", okProvider (float64.ofLen 290)]
      [okProvider (float64.ofLen 290), failProvider "boom"] ∧
    (∀ q ∈ [failProvider "boom", okProvider (float64.ofLen 290)], Returns "London" q) ∧
    multiWeatherProvider.temperature [failProvider "boom", okProvider (float64.ofLen 290)]
        "London"
      = multiWeatherProvider.temperature [okProvider (float64.ofLen 290), failProvider "boom"]
          "London" :=
  have hret : ∀ q ∈ [failProvider "boom", okProvider (float64.ofLen 290)],
      Returns "London" q := by
    intro q hq
    simp only [List.mem_cons, List.mem_singleton, List.not_mem_nil, or_false] at hq
    rcases hq with rfl | rfl
    · exact ⟨_, rfl⟩
    · exact ⟨_, rfl⟩
  ⟨List.Perm.swap _ _ _, hret,
    (composite_order_failure_status "London" _ _ (List.Perm.swap _ _ _) hret).2.2 "boom"
      ⟨failProvider "boom", by simp, float64.zero, "boom", rfl⟩
      (by
        intro q hq v e' hqe
        simp only [List.mem_cons, List.mem_singleton, List.not_mem_nil, or_false] at hq
        rcases hq with rfl | rfl
        · cases hqe; rfl
        · cases hqe)⟩

end GoHello
